import Mathlib

/-!
Verification development for the `lru-cache-adaptor` repository.

The repository wraps an external LRU-ordered key-value store (`disklru::Store`)
in a policy layer (`LruCache` in `src/lib.rs`) that performs capacity-aware
insertion of files: evicting least-recently-used entries and deleting their
backing files until a caller-declared overflow amount becomes negative.

The external store is modelled from the spec (it is an out-of-scope
collaborator): a list of key-value pairs ordered by recency,
least-recently-used first, most-recently-used last.  The filesystem is
modelled as a map from paths to file states (absent, present with a size, or
access-denied).  The policy-layer functions are translated directly from
`src/lib.rs` and `src/utils.rs`.

The eviction loop of `insert_new_file` is not structurally terminating in the
source (it can retry the same entry forever), so it is embedded with an
explicit fuel parameter: a `none` result means the loop has not terminated
within `fuel` iterations of the loop body.
-/

namespace LruAdaptor

/-- A resource reference, modelling `PathBuf`. -/
abbrev FilePath := Nat

/-- State of one path in the ambient filesystem: the file is absent, present
with a given size in bytes, or inaccessible (e.g. permission denied, so both
`metadata` and deletion fail with a non-`NotFound` error). -/
inductive FileState where
  | absent
  | file (size : Nat)
  | denied
deriving DecidableEq, Repr

/-- The ambient filesystem: what each path currently holds. -/
def FS := FilePath → FileState

/-- Errors of the adaptor layer, from `src/error.rs`. -/
inductive LRUError where
  | diskLRU
  | io
  | insufficientCapacity
deriving DecidableEq, Repr

/-- The per-eviction record `FileInfo` from `src/lib.rs`. -/
structure FileInfo (K : Type) where
  key : K
  file_path : FilePath
  file_size : Nat
deriving DecidableEq, Repr

/-- Modelled from the spec: the external ordered store (`disklru::Store`) is a
key-to-value mapping with a recency order over its keys.  We represent it as a
list of pairs, least-recently-used first, most-recently-used last. -/
abbrev Store (K V : Type) := List (K × V)

namespace Store

variable {K V : Type} [DecidableEq K]

/-- First binding for a key, if any. -/
def lookup (s : Store K V) (k : K) : Option V :=
  (s.find? (fun e => decide (e.1 = k))).map Prod.snd

/-- Remove the first binding for a key, if any. -/
def eraseKey (s : Store K V) (k : K) : Store K V :=
  s.eraseP (fun e => decide (e.1 = k))

/-- Modelled from the spec: recency-updating lookup (`Store::get`); a found
key is promoted to most-recently-used. -/
def get (s : Store K V) (k : K) : Option V × Store K V :=
  match s.lookup k with
  | none => (none, s)
  | some v => (some v, s.eraseKey k ++ [(k, v)])

/-- Modelled from the spec: lookup without recency update (`Store::peek`). -/
def peek (s : Store K V) (k : K) : Option V :=
  s.lookup k

/-- Modelled from the spec: insert or overwrite; the new entry becomes
most-recently-used; returns the previous value if one existed. -/
def insert (s : Store K V) (k : K) (v : V) : Option V × Store K V :=
  (s.lookup k, s.eraseKey k ++ [(k, v)])

/-- Modelled from the spec: remove and return a pair by key; absence is not
an error. -/
def pop (s : Store K V) (k : K) : Option (K × V) × Store K V :=
  match s.lookup k with
  | none => (none, s)
  | some v => (some (k, v), s.eraseKey k)

/-- Modelled from the spec: the least-recently-used key, without mutation. -/
def lru (s : Store K V) : Option K :=
  s.head?.map Prod.fst

/-- Modelled from the spec: the most-recently-used key, without mutation. -/
def mru (s : Store K V) : Option K :=
  s.getLast?.map Prod.fst

/-- Modelled from the spec: value of the least-recently-used key, via peek. -/
def peek_lru (s : Store K V) : Option V :=
  s.head?.map Prod.snd

/-- Modelled from the spec: value of the most-recently-used key, via peek. -/
def peek_mru (s : Store K V) : Option V :=
  s.getLast?.map Prod.snd

/-- Modelled from the spec: key-value pair lookup via peek. -/
def peek_key_value (s : Store K V) (k : K) : Option (K × V) :=
  (s.lookup k).map (fun v => (k, v))

end Store

/-- The state a policy-layer operation acts on: the wrapped store (with
`FilePath` values, as in the `LruCache<K, PathBuf>` impl block) together with
the ambient filesystem. -/
structure CacheState (K : Type) where
  store : Store K FilePath
  fs : FS

/-- `remove_file_get_size` from `src/utils.rs`: query the file size, then
delete the file; an absent file yields `Ok(None)`; any other failure is an
I/O error. -/
def remove_file_get_size (fs : FS) (p : FilePath) :
    Except LRUError (Option Nat × FS) :=
  match fs p with
  | .absent => .ok (none, fs)
  | .denied => .error .io
  | .file sz => .ok (some sz, fun q => if q = p then .absent else fs q)

variable {K : Type} [DecidableEq K]

/-- `LruCache::access`: recency-updating lookup (`inner.get`). -/
def access (st : CacheState K) (k : K) : Option FilePath × CacheState K :=
  match st.store.get k with
  | (v, s) => (v, { st with store := s })

/-- `LruCache::peek`: lookup without touching the LRU order. -/
def peek (st : CacheState K) (k : K) : Option FilePath :=
  st.store.peek k

/-- `LruCache::insert`: insert or overwrite; returns the replaced value. -/
def insert (st : CacheState K) (k : K) (p : FilePath) :
    Option FilePath × CacheState K :=
  match st.store.insert k p with
  | (old, s) => (old, { st with store := s })

/-- `LruCache::pop`: remove and return a pair; absence yields `none`. -/
def pop (st : CacheState K) (k : K) : Option (K × FilePath) × CacheState K :=
  match st.store.pop k with
  | (r, s) => (r, { st with store := s })

/-- `LruCache::most_recently_used`. -/
def most_recently_used (st : CacheState K) : Option K :=
  st.store.mru

/-- `LruCache::least_recently_used` (a `ReportBug` error from the store on an
empty store is converted to `None`). -/
def least_recently_used (st : CacheState K) : Option K :=
  st.store.lru

/-- `LruCache::most_recently_used_value` (via `peek_mru`). -/
def most_recently_used_value (st : CacheState K) : Option FilePath :=
  st.store.peek_mru

/-- `LruCache::least_recently_used_value` (via `peek_lru`). -/
def least_recently_used_value (st : CacheState K) : Option FilePath :=
  st.store.peek_lru

/-- `LruCache::most_recently_used_pair`: the MRU key, then its pair via peek. -/
def most_recently_used_pair (st : CacheState K) : Option (K × FilePath) :=
  match most_recently_used st with
  | none => none
  | some k => st.store.peek_key_value k

/-- `LruCache::least_recently_used_pair`: the LRU key, then its pair via peek. -/
def least_recently_used_pair (st : CacheState K) : Option (K × FilePath) :=
  match least_recently_used st with
  | none => none
  | some k => st.store.peek_key_value k

/-- `LruCache::remove_lru_file`: delete the backing file of the LRU entry and
report its size; the key-value pair is not popped. -/
def remove_lru_file (st : CacheState K) :
    Except LRUError (Option Nat) × CacheState K :=
  match least_recently_used_value st with
  | none => (.ok none, st)
  | some f =>
    match remove_file_get_size st.fs f with
    | .ok (r, fs) => (.ok r, { st with fs := fs })
    | .error e => (.error e, st)

/-- `LruCache::remove_file`: like `remove_lru_file` but for a caller-chosen
key, looked up via `access`; the key-value pair is not popped. -/
def remove_file (st : CacheState K) (k : K) :
    Except LRUError (Option Nat) × CacheState K :=
  match access st k with
  | (none, st1) => (.ok none, st1)
  | (some f, st1) =>
    match remove_file_get_size st1.fs f with
    | .ok (r, fs) => (.ok r, { st1 with fs := fs })
    | .error e => (.error e, st1)

/-- The conflict-resolution prologue of `insert_new_file` (`src/lib.rs`
lines 159-167): look the key up via `access` (promoting it when present), and
best-effort reclaim its old backing file, returning the reclaimed size (zero
when reclamation found nothing or failed) and the updated state.  The
binding `old_value` of the source is dead and therefore not modelled. -/
def conflict_phase (st : CacheState K) (k : K) : Int × CacheState K :=
  match access st k with
  | (none, st1) => (0, st1)
  | (some f, st1) =>
    match remove_file_get_size st1.fs f with
    | .ok (some sz, fs) => ((sz : Int), { st1 with fs := fs })
    | _ => (0, st1)

/-- The eviction loop of `insert_new_file` (`src/lib.rs` lines 171-185),
with explicit fuel counting executions of the loop body.  A `none` result
means the loop body would run more than `fuel` times.  Exactly as in the
source, an entry is popped only when its backing file was actually deleted
(`Ok(Some(size))`); the `Ok(None)` and `Err(_)` outcomes of
`remove_file_get_size` change nothing. -/
def evict_loop (fuel : Nat) (st : CacheState K) (exceed : Int)
    (acc : List (FileInfo K)) :
    Option (Except LRUError (List (FileInfo K)) × CacheState K) :=
  if exceed < 0 then some (.ok acc, st)
  else
    match fuel with
    | 0 => none
    | fuel + 1 =>
      match least_recently_used_pair st with
      | none => some (.error .insufficientCapacity, st)
      | some (lru_key, fp) =>
        match remove_file_get_size st.fs fp with
        | .ok (some sz, fs) =>
          evict_loop fuel (pop { st with fs := fs } lru_key).2
            (exceed - (sz : Int)) (acc ++ [⟨lru_key, fp, sz⟩])
        | .ok (none, fs) => evict_loop fuel { st with fs := fs } exceed acc
        | .error _ => evict_loop fuel st exceed acc

/-- `LruCache::insert_new_file`: conflict resolution, then the eviction loop,
then commit of the new mapping.  `fuel` bounds the number of loop-body
executions; `none` means the loop has not terminated within `fuel`. -/
def insert_new_file (fuel : Nat) (st : CacheState K) (k : K) (p : FilePath)
    (exceed_size : Int) :
    Option (Except LRUError (List (FileInfo K)) × CacheState K) :=
  match conflict_phase st k with
  | (d, st2) =>
    match evict_loop fuel st2 (exceed_size - d) [] with
    | none => none
    | some (.error e, st3) => some (.error e, st3)
    | some (.ok recs, st3) => some (.ok recs, (insert st3 k p).2)

/-- Total size, in bytes (as an integer), of a list of eviction records. -/
def sizesSum (recs : List (FileInfo K)) : Int :=
  (recs.map (fun r => (r.file_size : Int))).sum

/-- The number of bytes the `if let Ok(Some(file_size))` pattern of the
source reclaims from a path: the file's size when present, zero otherwise. -/
def reclaimInt (fs : FS) (p : FilePath) : Int :=
  match fs p with
  | .file sz => (sz : Int)
  | _ => 0

/-- Frame relation on filesystems: every path is unchanged or deleted. -/
def FsFrame (fs fs' : FS) : Prop :=
  ∀ q, fs' q = fs q ∨ fs' q = .absent

section BasicLemmas

variable {K V : Type} [DecidableEq K]

@[simp]
lemma Store.lookup_nil (k : K) : Store.lookup ([] : Store K V) k = none :=
  rfl

@[simp]
lemma Store.lookup_cons_self (k : K) (v : V) (t : Store K V) :
    Store.lookup ((k, v) :: t) k = some v := by
  simp [Store.lookup, List.find?_cons_of_pos]

lemma Store.lookup_cons_ne (a : K × V) (k : K) (t : Store K V) (h : ¬ a.1 = k) :
    Store.lookup (a :: t) k = Store.lookup t k := by
  simp [Store.lookup, List.find?_cons_of_neg, h]

@[simp]
lemma Store.eraseKey_nil (k : K) : Store.eraseKey ([] : Store K V) k = [] :=
  rfl

@[simp]
lemma Store.eraseKey_cons_self (k : K) (v : V) (t : Store K V) :
    Store.eraseKey ((k, v) :: t) k = t := by
  simp [Store.eraseKey, List.eraseP_cons_of_pos]

lemma Store.eraseKey_cons_ne (a : K × V) (k : K) (t : Store K V) (h : ¬ a.1 = k) :
    Store.eraseKey (a :: t) k = a :: Store.eraseKey t k := by
  simp [Store.eraseKey, List.eraseP_cons_of_neg, h]

/-- The LRU-pair query reads exactly the head of the recency list and has no
side effect. -/
lemma least_recently_used_pair_eq_head (st : CacheState K) :
    least_recently_used_pair st = st.store.head? := by
  match h : st.store with
  | [] => simp [least_recently_used_pair, least_recently_used, Store.lru, h]
  | (k, v) :: t =>
    simp [least_recently_used_pair, least_recently_used, Store.lru, h,
      Store.peek_key_value]

end BasicLemmas

section Stall

/-- A one-entry store whose single backing file is already absent. -/
def stallStAbsent : CacheState Nat :=
  ⟨[(0, 0)], fun _ => .absent⟩

/-- A one-entry store whose single backing file is inaccessible. -/
def stallStDenied : CacheState Nat :=
  ⟨[(0, 0)], fun _ => .denied⟩

lemma evict_loop_stall_absent (fuel : Nat) (acc : List (FileInfo Nat)) :
    evict_loop fuel stallStAbsent 0 acc = none := by
  induction fuel with
  | zero => simp [evict_loop]
  | succ n ih =>
    rw [evict_loop]
    simpa [least_recently_used_pair_eq_head, stallStAbsent,
      remove_file_get_size] using ih

lemma evict_loop_stall_denied (fuel : Nat) (acc : List (FileInfo Nat)) :
    evict_loop fuel stallStDenied 0 acc = none := by
  induction fuel with
  | zero => simp [evict_loop]
  | succ n ih =>
    rw [evict_loop]
    simpa [least_recently_used_pair_eq_head, stallStDenied,
      remove_file_get_size] using ih

end Stall

/-- C1: on a one-entry store whose least-recently-used backing file is already
absent and an overflow amount of zero, `insert_new_file` never terminates: for
every iteration budget the eviction loop is still running, because the
`Ok(None)` outcome of `remove_file_get_size` neither pops the entry nor
changes the overflow, so the same LRU entry is retried forever.  This
contradicts the claimed bound of (store size + 1) iterations with the stale
entry consumed via `pop`. -/
theorem insert_new_file_stalls_on_absent_lru_file (fuel : Nat) :
    insert_new_file fuel stallStAbsent 1 5 0 = none := by
  rw [insert_new_file]
  have hc : conflict_phase stallStAbsent 1 = (0, stallStAbsent) := by
    simp [conflict_phase, access, Store.get, stallStAbsent,
      Store.lookup_cons_ne]
  rw [hc]
  simp [evict_loop_stall_absent]

/-- C2: on a one-entry store whose least-recently-used backing file fails
reclamation with a non-NotFound error (e.g. permission denied) and an
overflow amount of zero, `insert_new_file` never returns: for every iteration
budget the eviction loop is still running, because the `if let Ok(Some(_))`
pattern silently discards the error instead of propagating it, and the same
LRU entry is retried forever. -/
theorem insert_new_file_swallows_reclaim_error (fuel : Nat) :
    insert_new_file fuel stallStDenied 1 5 0 = none := by
  rw [insert_new_file]
  have hc : conflict_phase stallStDenied 1 = (0, stallStDenied) := by
    simp [conflict_phase, access, Store.get, stallStDenied,
      Store.lookup_cons_ne]
  rw [hc]
  simp [evict_loop_stall_denied]

section Frame

variable {K : Type} [DecidableEq K]

lemma FsFrame.refl (fs : FS) : FsFrame fs fs :=
  fun q => Or.inl (Eq.refl (fs q))

lemma FsFrame.trans {a b c : FS} (h1 : FsFrame a b) (h2 : FsFrame b c) :
    FsFrame a c := by
  intro q
  rcases h2 q with h | h
  · rw [h]; exact h1 q
  · exact Or.inr h

@[simp]
lemma access_fs (st : CacheState K) (k : K) : ((access st k).2).fs = st.fs := by
  rcases h : st.store.get k with ⟨v, s⟩
  simp [access, h]

@[simp]
lemma pop_fs (st : CacheState K) (k : K) : ((pop st k).2).fs = st.fs := by
  rcases h : st.store.pop k with ⟨r, s⟩
  simp [pop, h]

lemma remove_file_get_size_frame {fs fs' : FS} {p : FilePath} {r : Option Nat}
    (h : remove_file_get_size fs p = .ok (r, fs')) : FsFrame fs fs' := by
  unfold remove_file_get_size at h
  cases hp : fs p with
  | absent =>
    rw [hp] at h
    simp only [Except.ok.injEq, Prod.mk.injEq] at h
    rw [← h.2]
    exact FsFrame.refl fs
  | denied => rw [hp] at h; exact absurd h (by simp)
  | file sz =>
    rw [hp] at h
    simp only [Except.ok.injEq, Prod.mk.injEq] at h
    rw [← h.2]
    intro q
    by_cases hq : q = p
    · simp [hq]
    · simp [hq]

lemma conflict_phase_fs_frame (st : CacheState K) (k : K) :
    FsFrame st.fs ((conflict_phase st k).2).fs := by
  have hfs : ((access st k).2).fs = st.fs := access_fs st k
  unfold conflict_phase
  rcases hacc : access st k with ⟨v, st1⟩
  have h1 : st1.fs = st.fs := by rw [← hfs, hacc]
  cases v with
  | none => exact h1 ▸ FsFrame.refl st1.fs
  | some f =>
    cases hrm : remove_file_get_size st1.fs f with
    | ok pr =>
      rcases pr with ⟨r, fs1⟩
      cases r with
      | none => simp only [hrm]; exact h1 ▸ FsFrame.refl st1.fs
      | some sz =>
        simp only [hrm]
        exact h1 ▸ remove_file_get_size_frame hrm
    | error e => simp only [hrm]; exact h1 ▸ FsFrame.refl st1.fs

lemma evict_loop_error :
    ∀ (fuel : Nat) (st : CacheState K) (e : Int) (acc : List (FileInfo K))
      (err : LRUError) (st' : CacheState K),
      evict_loop fuel st e acc = some (.error err, st') →
      err = .insufficientCapacity ∧ st'.store = [] ∧ FsFrame st.fs st'.fs := by
  intro fuel
  induction fuel with
  | zero =>
    intro st e acc err st' h
    rw [evict_loop] at h
    split at h
    · simp at h
    · simp at h
  | succ n ih =>
    intro st e acc err st' h
    rw [evict_loop] at h
    split at h
    · simp at h
    · split at h
      · rename_i hlru
        simp only [Option.some.injEq, Prod.mk.injEq, Except.error.injEq] at h
        have hstore : st.store = [] := by
          have := least_recently_used_pair_eq_head st
          rw [hlru] at this
          exact List.head?_eq_none_iff.mp this.symm
        refine ⟨h.1.symm, ?_, ?_⟩
        · rw [← h.2]; exact hstore
        · rw [← h.2]; exact FsFrame.refl st.fs
      · rename_i lk fp hlru
        split at h
        · rename_i sz fs1 hrm
          obtain ⟨h1, h2, h3⟩ := ih _ _ _ _ _ h
          refine ⟨h1, h2, ?_⟩
          have hf1 : FsFrame st.fs fs1 := remove_file_get_size_frame hrm
          have hp : ((pop { st with fs := fs1 } lk).2).fs = fs1 :=
            pop_fs { st with fs := fs1 } lk
          rw [hp] at h3
          exact FsFrame.trans hf1 h3
        · rename_i fs1 hrm
          obtain ⟨h1, h2, h3⟩ := ih _ _ _ _ _ h
          exact ⟨h1, h2, FsFrame.trans (remove_file_get_size_frame hrm) h3⟩
        · rename_i e2 hrm
          exact ih _ _ _ _ _ h

end Frame

/-- C4: (1) whenever `insert_new_file` returns an error, that error is the
distinct capacity error, raised exactly when the store has been exhausted
(the final store is empty); the pre-error evictions remain applied (every
path in the final filesystem is either unchanged or deleted, never restored),
and the new key-to-resource mapping has not been inserted (the final store is
empty); and (2) whenever the eviction loop reaches an empty store while the
overflow is still non-negative, it fails with the capacity error at once,
leaving the state as it stood at that point. -/
theorem insert_new_file_capacity_error {K : Type} [DecidableEq K] :
    (∀ (fuel : Nat) (st st' : CacheState K) (k : K) (p : FilePath) (e : Int)
      (err : LRUError),
      insert_new_file fuel st k p e = some (.error err, st') →
      err = .insufficientCapacity ∧ st'.store = [] ∧ FsFrame st.fs st'.fs) ∧
    (∀ (fuel : Nat) (st : CacheState K) (e : Int) (acc : List (FileInfo K)),
      0 ≤ e → st.store = [] →
      evict_loop (fuel + 1) st e acc =
        some (.error .insufficientCapacity, st)) := by
  constructor
  · intro fuel st st' k p e err h
    unfold insert_new_file at h
    dsimp only at h
    rcases hc : conflict_phase st k with ⟨d, st2⟩
    rw [hc] at h
    dsimp only at h
    cases hev : evict_loop fuel st2 (e - d) [] with
    | none => rw [hev] at h; simp at h
    | some r =>
      rcases r with ⟨res, st3⟩
      cases res with
      | ok recs => rw [hev] at h; simp at h
      | error e2 =>
        rw [hev] at h
        simp only [Option.some.injEq, Prod.mk.injEq, Except.error.injEq] at h
        obtain ⟨h1, h2, h3⟩ := evict_loop_error fuel st2 (e - d) [] e2 st3 hev
        have hframe : FsFrame st.fs st2.fs := by
          have hcf := conflict_phase_fs_frame st k
          rw [hc] at hcf
          exact hcf
        refine ⟨h.1 ▸ h1, ?_, ?_⟩
        · rw [← h.2]; exact h2
        · rw [← h.2]; exact FsFrame.trans hframe h3
  · intro fuel st e acc he hst
    rw [evict_loop]
    rw [if_neg (Int.not_lt.mpr he)]
    have hpair : least_recently_used_pair st = none := by
      rw [least_recently_used_pair_eq_head, hst]
      rfl
    rw [hpair]

section SuccessInvariant

variable {K : Type} [DecidableEq K]

@[simp]
lemma sizesSum_nil : sizesSum ([] : List (FileInfo K)) = 0 :=
  rfl

@[simp]
lemma sizesSum_cons (r : FileInfo K) (l : List (FileInfo K)) :
    sizesSum (r :: l) = (r.file_size : Int) + sizesSum l := by
  simp [sizesSum]

lemma pop_head (st : CacheState K) (k : K) (f : FilePath)
    (t : Store K FilePath) (h : st.store = (k, f) :: t) :
    (pop st k).2 = ⟨t, st.fs⟩ := by
  simp [pop, Store.pop, h]

/-- Everything a successful run of the eviction loop guarantees about the
records it appends: they are the initial segment of the recency list at loop
entry (strictly LRU-first order), every entry was evicted while the running
overflow was still non-negative, and the loop stopped exactly when the
overflow became negative. -/
lemma evict_loop_ok :
    ∀ (fuel : Nat) (st : CacheState K) (e : Int) (acc recs : List (FileInfo K))
      (st' : CacheState K),
      evict_loop fuel st e acc = some (.ok recs, st') →
      ∃ news,
        recs = acc ++ news ∧
        news.map (fun r => (r.key, r.file_path)) = st.store.take news.length ∧
        (∀ i < news.length, 0 ≤ e - sizesSum (news.take i)) ∧
        e - sizesSum news < 0 := by
  intro fuel
  induction fuel with
  | zero =>
    intro st e acc recs st' h
    rw [evict_loop] at h
    split at h
    · rename_i he
      simp only [Option.some.injEq, Prod.mk.injEq, Except.ok.injEq] at h
      refine ⟨[], by simp [← h.1], by simp, by simp, by simpa using he⟩
    · simp at h
  | succ n ih =>
    intro st e acc recs st' h
    rw [evict_loop] at h
    split at h
    · rename_i he
      simp only [Option.some.injEq, Prod.mk.injEq, Except.ok.injEq] at h
      refine ⟨[], by simp [← h.1], by simp, by simp, by simpa using he⟩
    · rename_i he
      have he' : 0 ≤ e := Int.not_lt.mp he
      split at h
      · simp at h
      · rename_i lk fp hlru
        have hhead : st.store.head? = some (lk, fp) := by
          rw [← least_recently_used_pair_eq_head st, hlru]
        match hst : st.store with
        | [] => rw [hst] at hhead; simp at hhead
        | a :: t =>
          rw [hst] at hhead
          simp only [List.head?_cons, Option.some.injEq] at hhead
          split at h
          · rename_i sz fs1 hrm
            rw [pop_head { st with fs := fs1 } lk fp t (by simp [hst, hhead])]
              at h
            obtain ⟨news', h1, h2, h3, h4⟩ := ih _ _ _ _ _ h
            refine ⟨⟨lk, fp, sz⟩ :: news', ?_, ?_, ?_, ?_⟩
            · rw [h1]; simp
            · simp only [List.map_cons, List.length_cons, hst, ← hhead,
                List.take_succ_cons]
              simpa using h2
            · intro i hi
              match i with
              | 0 => simpa using he'
              | j + 1 =>
                have hj : j < news'.length := by
                  simpa using Nat.lt_of_succ_lt_succ hi
                have := h3 j hj
                simp only [List.take_succ_cons, sizesSum_cons]
                linarith
            · simp only [sizesSum_cons]
              linarith
          · rename_i fs1 hrm
            obtain ⟨news', h1, h2, h3, h4⟩ := ih _ _ _ _ _ h
            exact ⟨news', h1, by simpa [hst] using h2, h3, h4⟩
          · rename_i e2 hrm
            obtain ⟨news', h1, h2, h3, h4⟩ := ih _ _ _ _ _ h
            exact ⟨news', h1, by simpa [hst] using h2, h3, h4⟩

end SuccessInvariant

/-- C3: on every successful `insert_new_file` call, the returned
eviction-record sequence is an initial segment of the recency list as it
stood when the eviction loop started (after conflict resolution), i.e. it is
strictly in least-recently-used order; moreover every record was produced
while the running overflow (declared overflow minus the conflict-reclaimed
size minus the sizes already freed) was still non-negative, and the total
freed size is the first to push the overflow below zero — the minimum needed
within caller-reported sizes — at which point the new mapping is committed. -/
theorem insert_new_file_success_minimal_lru {K : Type} [DecidableEq K]
    (fuel : Nat) (st st' : CacheState K) (k : K) (p : FilePath) (e : Int)
    (recs : List (FileInfo K))
    (h : insert_new_file fuel st k p e = some (.ok recs, st')) :
    recs.map (fun r => (r.key, r.file_path)) =
      ((conflict_phase st k).2).store.take recs.length ∧
    (∀ i < recs.length, 0 ≤ (e - (conflict_phase st k).1) - sizesSum (recs.take i)) ∧
    (e - (conflict_phase st k).1) - sizesSum recs < 0 := by
  unfold insert_new_file at h
  dsimp only at h
  cases hev : evict_loop fuel ((conflict_phase st k).2)
      (e - (conflict_phase st k).1) [] with
  | none => rw [hev] at h; simp at h
  | some r =>
    rcases r with ⟨res, st3⟩
    cases res with
    | error e2 => rw [hev] at h; simp at h
    | ok recs0 =>
      rw [hev] at h
      simp only [Option.some.injEq, Prod.mk.injEq, Except.ok.injEq] at h
      obtain ⟨news, h1, h2, h3, h4⟩ := evict_loop_ok fuel _ _ _ _ _ hev
      have hrecs : recs = news := by rw [← h.1, h1]; simp
      subst hrecs
      exact ⟨h2, h3, h4⟩

section LiteralScenario

/-- Filesystem of the literal scenario: five files of sizes
512, 512, 768, 512, 1536 bytes at paths 11..15. -/
def scenFs : FS := fun p =>
  if p = 11 then .file 512 else if p = 12 then .file 512
  else if p = 13 then .file 768 else if p = 14 then .file 512
  else if p = 15 then .file 1536 else .absent

/-- One step of the literal scenario: insert key `k` (path `k + 10`) of the
given size into a 2048-byte pool, declaring the overflow as
`size - (capacity - used)` and rolling the caller-side `used` forward by the
inserted size minus the freed bytes. -/
def scenNext (a : Option (List (FileInfo Nat) × CacheState Nat × Int))
    (k size : Nat) : Option (List (FileInfo Nat) × CacheState Nat × Int) :=
  match a with
  | none => none
  | some (_, st, used) =>
    match insert_new_file 10 st k (k + 10) ((size : Int) - (2048 - used)) with
    | some (.ok recs, st1) =>
      some (recs, st1, used + (size : Int) - sizesSum recs)
    | _ => none

/-- The literal scenario after the first four insertions. -/
def scenRun4 : Option (List (FileInfo Nat) × CacheState Nat × Int) :=
  scenNext (scenNext (scenNext (scenNext
    (some ([], ⟨[], scenFs⟩, 0)) 1 512) 2 512) 3 768) 4 512

/-- The literal scenario after the fifth insertion (size 1536). -/
def scenRun5 : Option (List (FileInfo Nat) × CacheState Nat × Int) :=
  scenNext scenRun4 5 1536

/-- Records returned by the fourth insertion of the literal scenario. -/
def scenRecs4 : List (FileInfo Nat) :=
  match scenRun4 with
  | some (r, _, _) => r
  | none => []

/-- Records returned by the fifth insertion of the literal scenario. -/
def scenRecs5 : List (FileInfo Nat) :=
  match scenRun5 with
  | some (r, _, _) => r
  | none => []

/-- Caller-side `used` after the fifth insertion of the literal scenario. -/
def scenUsed5 : Int :=
  match scenRun5 with
  | some (_, _, u) => u
  | none => 0

/-- Store contents after the fifth insertion of the literal scenario. -/
def scenStore5 : Store Nat FilePath :=
  match scenRun5 with
  | some (_, st, _) => st.store
  | none => []

/-- Whether the fifth insertion of the literal scenario succeeded. -/
def scenOk5 : Bool :=
  match scenRun5 with
  | some _ => true
  | none => false

end LiteralScenario

/-- C5 counterexample: in the literal scenario (capacity 2048, sizes
[512, 512, 768, 512, 1536], overflow = size − (capacity − used)), the fifth
insertion does NOT evict exactly the two oldest entries freeing 1024 bytes:
it returns three eviction records freeing 1792 bytes, because the fourth
insertion (overflow 512 − (2048 − 1792) = 256 ≥ 0) had already evicted the
oldest entry, and the loop keeps evicting while the overflow is ≥ 0, so the
fifth call (overflow 1280) consumes the 512-, 768- and 512-byte entries. -/
theorem scenario_fifth_insert_counterexample :
    scenRecs5.length = 3 ∧ sizesSum scenRecs5 = 1792 := by
  constructor
  · rfl
  · rfl

/-- C5 amended: in the literal scenario, the fourth insertion already evicts
the oldest 512-byte entry, and the fifth insertion (1536 bytes) succeeds
after evicting the three remaining older entries (512 + 768 + 512 = 1792
bytes freed), leaving `used` equal to 1536 and the store holding only the
new entry. -/
theorem scenario_literal_actual_evictions :
    scenOk5 = true ∧
    scenRecs4.map (fun r => (r.key, r.file_size)) = [(1, 512)] ∧
    scenRecs5.map (fun r => (r.key, r.file_size)) =
      [(2, 512), (3, 768), (4, 512)] ∧
    scenUsed5 = 1536 ∧
    scenStore5 = [(5, 15)] := by
  refine ⟨rfl, rfl, rfl, rfl, rfl⟩

section Witness34

/-- Concrete filesystem for the success witness: files of sizes 5 and 7. -/
def c3wFs : FS := fun q =>
  if q = 11 then .file 5 else if q = 12 then .file 7 else .absent

/-- Concrete two-entry cache state for the success witness. -/
def c3wSt : CacheState Nat := ⟨[(1, 11), (2, 12)], c3wFs⟩

/-- The state after the witness run: entry 1 evicted, entry 3 committed. -/
def c3wSt2 : CacheState Nat :=
  ⟨[(2, 12), (3, 13)], fun q => if q = 11 then .absent else c3wFs q⟩

/-- Filesystem holding only a 1536-byte file at path 15. -/
def c4wFs : FS := fun p => if p = 15 then .file 1536 else .absent

/-- One-entry cache state for the capacity-error witness. -/
def c4wSt : CacheState Nat := ⟨[(5, 15)], c4wFs⟩

/-- The exhausted state the capacity-error witness ends in. -/
def c4wSt2 : CacheState Nat :=
  ⟨[], fun q => if q = 15 then .absent else c4wFs q⟩

end Witness34

/-- Witness for C3: a concrete successful insertion (overflow 4 against a
two-entry store) evicts exactly the 5-byte LRU entry; the record list is an
initial segment of the loop-entry recency list, the eviction happened at
non-negative running overflow, and the total pushed the overflow below 0. -/
theorem insert_new_file_success_minimal_lru_witness :
    (insert_new_file 5 c3wSt 3 13 4 = some (.ok [⟨1, 11, 5⟩], c3wSt2)) ∧
    ([(⟨1, 11, 5⟩ : FileInfo Nat)].map (fun r => (r.key, r.file_path)) =
      ((conflict_phase c3wSt 3).2).store.take 1) ∧
    (0 ≤ (4 - (conflict_phase c3wSt 3).1) -
      sizesSum (([⟨1, 11, 5⟩] : List (FileInfo Nat)).take 0)) ∧
    ((4 - (conflict_phase c3wSt 3).1) -
      sizesSum ([⟨1, 11, 5⟩] : List (FileInfo Nat)) < 0) :=
  ⟨rfl,
    (insert_new_file_success_minimal_lru 5 c3wSt c3wSt2 3 13 4 [⟨1, 11, 5⟩] (by rfl)).1,
    (insert_new_file_success_minimal_lru 5 c3wSt c3wSt2 3 13 4 [⟨1, 11, 5⟩] (by rfl)).2.1 0
      (by decide),
    (insert_new_file_success_minimal_lru 5 c3wSt c3wSt2 3 13 4 [⟨1, 11, 5⟩] (by rfl)).2.2⟩

/-- Witness for C4: inserting a 2049-byte file into a 2048-byte pool holding
one 1536-byte entry (overflow 1537) evicts that entry, exhausts the store,
and fails with the capacity error; the eviction stays applied and the new
mapping is absent from the (empty) final store. -/
theorem insert_new_file_capacity_error_witness :
    (insert_new_file 5 c4wSt 6 16 1537 =
      some (.error .insufficientCapacity, c4wSt2)) ∧
    (LRUError.insufficientCapacity = LRUError.insufficientCapacity ∧
      c4wSt2.store = [] ∧ FsFrame c4wSt.fs c4wSt2.fs) ∧
    evict_loop 1 c4wSt2 1 [] =
      some (.error .insufficientCapacity, c4wSt2) :=
  ⟨rfl,
    insert_new_file_capacity_error.1 5 c4wSt c4wSt2 6 16 1537
      .insufficientCapacity (by rfl),
    insert_new_file_capacity_error.2 0 c4wSt2 1 [] (by decide) (by rfl)⟩

section NodupLemmas

variable {K V : Type} [DecidableEq K]

/-- With duplicate-free keys, erasing a key is the same as filtering it out. -/
lemma Store.eraseKey_eq_filter {s : Store K V} (k : K)
    (h : (s.map Prod.fst).Nodup) :
    s.eraseKey k = s.filter (fun e => decide ¬(e.1 = k)) := by
  induction s with
  | nil => rfl
  | cons a t ih =>
    rw [List.map_cons, List.nodup_cons] at h
    rcases a with ⟨ak, av⟩
    by_cases hk : ak = k
    · subst hk
      rw [Store.eraseKey_cons_self,
        List.filter_cons_of_neg (by simp), List.filter_eq_self.mpr]
      intro e he
      have hne : ¬ e.1 = ak := by
        intro hek
        have hm := List.mem_map_of_mem Prod.fst he
        rw [hek] at hm
        exact h.1 hm
      simpa using hne
    · rw [Store.eraseKey_cons_ne ⟨ak, av⟩ k t hk,
        List.filter_cons_of_pos (by simpa using hk), ih h.2]

/-- With duplicate-free keys, nothing with the erased key remains. -/
lemma Store.eraseKey_keys {s : Store K V} (k : K)
    (h : (s.map Prod.fst).Nodup) :
    ∀ e ∈ s.eraseKey k, ¬ e.1 = k := by
  rw [Store.eraseKey_eq_filter k h]
  intro e he
  have := List.of_mem_filter he
  simpa using this

/-- With duplicate-free keys, any member is found by `lookup`. -/
lemma Store.lookup_of_mem {s : Store K V} (h : (s.map Prod.fst).Nodup)
    (e : K × V) (he : e ∈ s) : s.lookup e.1 = some e.2 := by
  induction s with
  | nil => simp at he
  | cons a t ih =>
    rw [List.map_cons, List.nodup_cons] at h
    rcases List.mem_cons.mp he with rfl | hmem
    · rcases e with ⟨k, v⟩
      exact Store.lookup_cons_self k v t
    · have hne : ¬ a.1 = e.1 := by
        intro heq
        exact h.1 (heq ▸ List.mem_map_of_mem Prod.fst hmem)
      rw [Store.lookup_cons_ne a e.1 t hne]
      exact ih h.2 hmem

/-- Popping a found key, then re-appending it, is a permutation: `access`
and `insert` never lose a binding. -/
lemma Store.perm_eraseKey_append {s : Store K V} (k : K) (v : V)
    (h : s.lookup k = some v) : s.Perm (s.eraseKey k ++ [(k, v)]) := by
  induction s with
  | nil => simp [Store.lookup] at h
  | cons a t ih =>
    rcases a with ⟨ak, av⟩
    by_cases hk : ak = k
    · subst hk
      rw [Store.lookup_cons_self] at h
      have hv : av = v := by injection h
      subst hv
      rw [Store.eraseKey_cons_self]
      exact @List.perm_append_comm _ [(ak, av)] t
    · rw [Store.lookup_cons_ne ⟨ak, av⟩ k t hk] at h
      rw [Store.eraseKey_cons_ne ⟨ak, av⟩ k t hk]
      exact (ih h).cons ⟨ak, av⟩

/-- Keys of a filtered store are the filtered keys. -/
lemma Store.map_fst_filter_ne (s : Store K V) (k : K) :
    (s.filter (fun e => decide ¬(e.1 = k))).map Prod.fst =
      (s.map Prod.fst).filter (fun a => decide ¬(a = k)) := by
  induction s with
  | nil => rfl
  | cons a t ih =>
    by_cases hk : a.1 = k
    · rw [List.filter_cons_of_neg (by simp [hk]), List.map_cons,
        List.filter_cons_of_neg (by simp [hk]), ih]
    · rw [List.filter_cons_of_pos (by simpa using hk), List.map_cons,
        List.map_cons, List.filter_cons_of_pos (by simpa using hk), ih]

/-- Erasing a key that no longer occurs in the left part of an append only
affects the right part. -/
lemma Store.eraseKey_append_of_not_key {s : Store K V} (k : K)
    (h : ∀ e ∈ s, ¬ e.1 = k) (l : Store K V) :
    (s ++ l).eraseKey k = s ++ l.eraseKey k := by
  unfold Store.eraseKey
  exact List.eraseP_append_right l (by simpa using h)

end NodupLemmas

/-- C6: inserting under a key that already maps to a resource first reclaims
the old resource best-effort (a present file contributes its size, an absent
or inaccessible one contributes zero and is tolerated), subtracts the
reclaimed size from the overflow, and — when the adjusted overflow is already
negative — evicts nothing else and commits the new mapping, the old binding
being replaced only by this final commit; the final filesystem is exactly the
one the conflict-time reclamation produced. -/
theorem insert_new_file_conflict_replacement {K : Type} [DecidableEq K]
    (fuel : Nat) (st : CacheState K) (k : K) (f p : FilePath) (e : Int)
    (hN : (st.store.map Prod.fst).Nodup)
    (hk : st.store.lookup k = some f)
    (he : e - reclaimInt st.fs f < 0) :
    insert_new_file fuel st k p e =
      some (.ok [], ⟨st.store.eraseKey k ++ [(k, p)],
        match remove_file_get_size st.fs f with
        | .ok (_, fs1) => fs1
        | .error _ => st.fs⟩) := by
  have hacc : access st k =
      (some f, ⟨st.store.eraseKey k ++ [(k, f)], st.fs⟩) := by
    simp [access, Store.get, hk]
  have herase : (st.store.eraseKey k ++ [(k, f)]).eraseKey k =
      st.store.eraseKey k := by
    rw [Store.eraseKey_append_of_not_key k (Store.eraseKey_keys k hN)]
    simp [Store.eraseKey]
  cases hfs : st.fs f with
  | file sz =>
    have hd : reclaimInt st.fs f = (sz : Int) := by simp [reclaimInt, hfs]
    have hconf : conflict_phase st k =
        ((sz : Int), ⟨st.store.eraseKey k ++ [(k, f)],
          fun q => if q = f then .absent else st.fs q⟩) := by
      unfold conflict_phase
      rw [hacc]
      dsimp only
      simp [remove_file_get_size, hfs]
    unfold insert_new_file
    rw [hconf]
    dsimp only
    rw [evict_loop.eq_def, if_pos (show e - (sz : Int) < 0 from hd ▸ he)]
    dsimp only
    simp [insert, Store.insert, herase, remove_file_get_size, hfs]
  | absent =>
    have hd : reclaimInt st.fs f = 0 := by simp [reclaimInt, hfs]
    have hconf : conflict_phase st k =
        (0, ⟨st.store.eraseKey k ++ [(k, f)], st.fs⟩) := by
      unfold conflict_phase
      rw [hacc]
      dsimp only
      simp [remove_file_get_size, hfs]
    unfold insert_new_file
    rw [hconf]
    dsimp only
    rw [evict_loop.eq_def, if_pos (show e - (0 : Int) < 0 from hd ▸ he)]
    dsimp only
    simp [insert, Store.insert, herase, remove_file_get_size, hfs]
  | denied =>
    have hd : reclaimInt st.fs f = 0 := by simp [reclaimInt, hfs]
    have hconf : conflict_phase st k =
        (0, ⟨st.store.eraseKey k ++ [(k, f)], st.fs⟩) := by
      unfold conflict_phase
      rw [hacc]
      dsimp only
      simp [remove_file_get_size, hfs]
    unfold insert_new_file
    rw [hconf]
    dsimp only
    rw [evict_loop.eq_def, if_pos (show e - (0 : Int) < 0 from hd ▸ he)]
    dsimp only
    simp [insert, Store.insert, herase, remove_file_get_size, hfs]

section QueryLemmas

variable {K : Type} [DecidableEq K]

/-- The MRU-pair query reads exactly the last element of the recency list
(keys being duplicate-free) and has no side effect. -/
lemma most_recently_used_pair_eq_getLast (st : CacheState K)
    (hN : (st.store.map Prod.fst).Nodup) :
    most_recently_used_pair st = st.store.getLast? := by
  cases hlast : st.store.getLast? with
  | none =>
    have hnil : st.store = [] := List.getLast?_eq_none_iff.mp hlast
    simp [most_recently_used_pair, most_recently_used, Store.mru, hnil]
  | some a =>
    have hmem : a ∈ st.store := List.mem_of_getLast?_eq_some hlast
    have hlook := Store.lookup_of_mem hN a hmem
    simp [most_recently_used_pair, most_recently_used, Store.mru, hlast,
      Store.peek_key_value, hlook]

/-- Conflict resolution only touches the filesystem beyond what `access`
does to the store. -/
lemma conflict_phase_store (st : CacheState K) (k : K) :
    ((conflict_phase st k).2).store = ((access st k).2).store := by
  unfold conflict_phase
  rcases hacc : access st k with ⟨v, st1⟩
  cases v with
  | none => rfl
  | some f =>
    cases hrm : remove_file_get_size st1.fs f with
    | ok pr =>
      rcases pr with ⟨r, fs1⟩
      cases r with
      | none => simp [hrm]
      | some sz => simp [hrm]
    | error e2 => simp [hrm]

end QueryLemmas

/-- C7: the peek-style query family is effect-free and empty-safe — on an
empty store the most/least-recently-used key, value and pair queries all
report `none` rather than an error; the pair queries are pure reads of the
two ends of the recency list; and `access` on a present key promotes exactly
that key to most-recently-used while preserving the relative recency order
of every other key. -/
theorem query_order_contract {K : Type} [DecidableEq K]
    (st : CacheState K) (k : K) (v : FilePath) (g : FS)
    (hN : (st.store.map Prod.fst).Nodup)
    (hk : st.store.lookup k = some v) :
    most_recently_used (⟨[], g⟩ : CacheState K) = none ∧
    least_recently_used (⟨[], g⟩ : CacheState K) = none ∧
    most_recently_used_pair (⟨[], g⟩ : CacheState K) = none ∧
    least_recently_used_pair (⟨[], g⟩ : CacheState K) = none ∧
    most_recently_used_value (⟨[], g⟩ : CacheState K) = none ∧
    least_recently_used_value (⟨[], g⟩ : CacheState K) = none ∧
    least_recently_used_pair st = st.store.head? ∧
    most_recently_used_pair st = st.store.getLast? ∧
    access st k = (some v, ⟨st.store.eraseKey k ++ [(k, v)], st.fs⟩) ∧
    most_recently_used ((access st k).2) = some k ∧
    (((access st k).2).store.map Prod.fst).filter (fun a => decide ¬(a = k)) =
      (st.store.map Prod.fst).filter (fun a => decide ¬(a = k)) := by
  have hacc : access st k =
      (some v, ⟨st.store.eraseKey k ++ [(k, v)], st.fs⟩) := by
    simp [access, Store.get, hk]
  refine ⟨rfl, rfl, rfl, rfl, rfl, rfl,
    least_recently_used_pair_eq_head st,
    most_recently_used_pair_eq_getLast st hN, hacc, ?_, ?_⟩
  · rw [hacc]
    simp [most_recently_used, Store.mru]
  · rw [hacc]
    dsimp only
    rw [List.map_append, List.filter_append]
    have h1 : (([(k, v)] : Store K FilePath).map Prod.fst).filter
        (fun a => decide ¬(a = k)) = [] := by simp
    have h2 : (st.store.eraseKey k).map Prod.fst =
        (st.store.map Prod.fst).filter (fun a => decide ¬(a = k)) := by
      rw [Store.eraseKey_eq_filter k hN, Store.map_fst_filter_ne]
    rw [h1, h2, List.filter_filter]
    simp

/-- C8: the reclamation helpers treat an absent backing file as "no size
reclaimed" (`Ok(None)`), never as an error, and neither of them removes a
key-value pair from the store's mapping (`remove_lru_file` leaves the store
untouched, `remove_file` at most reorders it); popping an absent key reports
"no pair" and leaves the state unchanged. -/
theorem absence_contract {K : Type} [DecidableEq K]
    (st : CacheState K) (k : K) :
    ((remove_lru_file st).2).store = st.store ∧
    ((remove_file st k).2).store.Perm st.store ∧
    (∀ f, least_recently_used_value st = some f → st.fs f = .absent →
      (remove_lru_file st).1 = .ok none) ∧
    (∀ f, st.store.lookup k = some f → st.fs f = .absent →
      (remove_file st k).1 = .ok none) ∧
    (st.store.lookup k = none → pop st k = (none, st)) := by
  refine ⟨?_, ?_, ?_, ?_, ?_⟩
  · unfold remove_lru_file
    cases hl : least_recently_used_value st with
    | none => rfl
    | some f =>
      dsimp only
      cases hrm : remove_file_get_size st.fs f with
      | ok pr => rcases pr with ⟨r, fs1⟩; rfl
      | error e => rfl
  · unfold remove_file
    cases hlk : st.store.lookup k with
    | none =>
      have hacc : access st k = (none, st) := by
        simp [access, Store.get, hlk]
      rw [hacc]
    | some f =>
      have hacc : access st k =
          (some f, ⟨st.store.eraseKey k ++ [(k, f)], st.fs⟩) := by
        simp [access, Store.get, hlk]
      rw [hacc]
      dsimp only
      have hperm := (Store.perm_eraseKey_append k f hlk).symm
      cases hrm : remove_file_get_size st.fs f with
      | ok pr => rcases pr with ⟨r, fs1⟩; exact hperm
      | error e => exact hperm
  · intro f hl hfs
    unfold remove_lru_file
    rw [hl]
    simp [remove_file_get_size, hfs]
  · intro f hlk hfs
    have hacc : access st k =
        (some f, ⟨st.store.eraseKey k ++ [(k, f)], st.fs⟩) := by
      simp [access, Store.get, hlk]
    unfold remove_file
    rw [hacc]
    simp [remove_file_get_size, hfs]
  · intro hlk
    simp [pop, Store.pop, hlk]

/-- C9: `remove_file` looks the value up through the recency-updating
`access`, so it promotes the key to most-recently-used as a side effect,
while `remove_lru_file` reads the LRU value through a peek and leaves the
recency order entirely unchanged. -/
theorem remove_file_promotes_lru_preserves {K : Type} [DecidableEq K]
    (st : CacheState K) (k : K) (f : FilePath)
    (hk : st.store.lookup k = some f) :
    ((remove_file st k).2).store = st.store.eraseKey k ++ [(k, f)] ∧
    ((remove_lru_file st).2).store = st.store := by
  constructor
  · have hacc : access st k =
        (some f, ⟨st.store.eraseKey k ++ [(k, f)], st.fs⟩) := by
      simp [access, Store.get, hk]
    unfold remove_file
    rw [hacc]
    dsimp only
    cases hrm : remove_file_get_size st.fs f with
    | ok pr => rcases pr with ⟨r, fs1⟩; rfl
    | error e => rfl
  · unfold remove_lru_file
    cases hl : least_recently_used_value st with
    | none => rfl
    | some f1 =>
      dsimp only
      cases hrm : remove_file_get_size st.fs f1 with
      | ok pr => rcases pr with ⟨r, fs1⟩; rfl
      | error e => rfl

/-- C10: when the inserted key already has a binding, the conflict-resolution
lookup goes through `access` and therefore promotes that key to
most-recently-used before the eviction loop begins; consequently, on any
successful run the sequence of evicted keys is an initial segment of "all the
other keys in LRU order, then the conflicting key", so every other entry is
selected for eviction before the conflicting key could ever be. -/
theorem conflict_key_evicted_last {K : Type} [DecidableEq K]
    (fuel : Nat) (st st' : CacheState K) (k : K) (f p : FilePath) (e : Int)
    (recs : List (FileInfo K))
    (hN : (st.store.map Prod.fst).Nodup)
    (hk : st.store.lookup k = some f)
    (h : insert_new_file fuel st k p e = some (.ok recs, st')) :
    ((conflict_phase st k).2).store = st.store.eraseKey k ++ [(k, f)] ∧
    recs.map (fun r => r.key) =
      (((st.store.map Prod.fst).filter (fun a => decide ¬(a = k))) ++
        [k]).take recs.length := by
  have hacc : access st k =
      (some f, ⟨st.store.eraseKey k ++ [(k, f)], st.fs⟩) := by
    simp [access, Store.get, hk]
  have hcs : ((conflict_phase st k).2).store =
      st.store.eraseKey k ++ [(k, f)] := by
    rw [conflict_phase_store st k, hacc]
  refine ⟨hcs, ?_⟩
  have hpre : recs.map (fun r => (r.key, r.file_path)) =
      ((conflict_phase st k).2).store.take recs.length := by
    unfold insert_new_file at h
    dsimp only at h
    cases hev : evict_loop fuel ((conflict_phase st k).2)
        (e - (conflict_phase st k).1) [] with
    | none => rw [hev] at h; simp at h
    | some r =>
      rcases r with ⟨res, st3⟩
      cases res with
      | error e2 => rw [hev] at h; simp at h
      | ok recs0 =>
        rw [hev] at h
        simp only [Option.some.injEq, Prod.mk.injEq, Except.ok.injEq] at h
        obtain ⟨news, h1, h2, h3, h4⟩ := evict_loop_ok fuel _ _ _ _ _ hev
        have hrecs : recs = news := by rw [← h.1, h1]; simp
        subst hrecs
        exact h2
  have hkeys : recs.map (fun r => r.key) =
      (((conflict_phase st k).2).store.map Prod.fst).take recs.length := by
    have := congrArg (List.map Prod.fst) hpre
    rw [List.map_map, List.map_take] at this
    exact this
  rw [hkeys, hcs, List.map_append]
  have h2 : (st.store.eraseKey k).map Prod.fst =
      (st.store.map Prod.fst).filter (fun a => decide ¬(a = k)) := by
    rw [Store.eraseKey_eq_filter k hN, Store.map_fst_filter_ne]
  rw [h2]
  rfl

section MoreWitnessStates

/-- Filesystem with a single 100-byte file at path 11. -/
def c6wFs : FS := fun q => if q = 11 then .file 100 else .absent

/-- One-entry cache state whose key 1 maps to the 100-byte file. -/
def c6wSt : CacheState Nat := ⟨[(1, 11)], c6wFs⟩

/-- All-absent filesystem used by the query-contract witness. -/
def c7wFs : FS := fun _ => .absent

/-- Two-entry cache state used by the query-contract witness. -/
def c7wSt : CacheState Nat := ⟨[(1, 11), (2, 12)], c7wFs⟩

/-- One-entry cache state over an all-absent filesystem. -/
def c8wSt : CacheState Nat := ⟨[(1, 11)], fun _ => .absent⟩

/-- Two-entry cache state over an all-absent filesystem. -/
def c9wSt : CacheState Nat := ⟨[(1, 11), (2, 12)], fun _ => .absent⟩

/-- Filesystem with files of sizes 5 and 7 at paths 11 and 12. -/
def c10wFs : FS := fun q =>
  if q = 11 then .file 5 else if q = 12 then .file 7 else .absent

/-- Two-entry cache state whose key 2 will conflict on re-insertion. -/
def c10wSt : CacheState Nat := ⟨[(1, 11), (2, 12)], c10wFs⟩

/-- Final state of the conflict-order witness run. -/
def c10wSt2 : CacheState Nat :=
  ⟨[(2, 13)], fun q =>
    if q = 11 then .absent else if q = 12 then .absent else c10wFs q⟩

end MoreWitnessStates

/-- Witness for C6: re-inserting key 1 (old resource of 100 bytes) with a
declared overflow of −40 reclaims the old resource, adjusts the overflow to
−140 < 0, evicts nothing, and commits the new mapping at MRU. -/
theorem insert_new_file_conflict_replacement_witness :
    ((c6wSt.store.map Prod.fst).Nodup ∧
      c6wSt.store.lookup 1 = some 11 ∧
      (-40 : Int) - reclaimInt c6wSt.fs 11 < 0) ∧
    insert_new_file 3 c6wSt 1 12 (-40) =
      some (.ok [], ⟨c6wSt.store.eraseKey 1 ++ [(1, 12)],
        match remove_file_get_size c6wSt.fs 11 with
        | .ok (_, fs1) => fs1
        | .error _ => c6wSt.fs⟩) :=
  ⟨⟨by decide, by decide, by decide⟩,
    insert_new_file_conflict_replacement 3 c6wSt 1 11 12 (-40)
      (by decide) (by decide) (by decide)⟩

/-- Witness for C7: the query contract evaluated on a concrete two-entry
state with key 1 accessed. -/
theorem query_order_contract_witness :
    most_recently_used (⟨[], c7wFs⟩ : CacheState Nat) = none ∧
    least_recently_used (⟨[], c7wFs⟩ : CacheState Nat) = none ∧
    most_recently_used_pair (⟨[], c7wFs⟩ : CacheState Nat) = none ∧
    least_recently_used_pair (⟨[], c7wFs⟩ : CacheState Nat) = none ∧
    most_recently_used_value (⟨[], c7wFs⟩ : CacheState Nat) = none ∧
    least_recently_used_value (⟨[], c7wFs⟩ : CacheState Nat) = none ∧
    least_recently_used_pair c7wSt = c7wSt.store.head? ∧
    most_recently_used_pair c7wSt = c7wSt.store.getLast? ∧
    access c7wSt 1 = (some 11, ⟨c7wSt.store.eraseKey 1 ++ [(1, 11)],
      c7wSt.fs⟩) ∧
    most_recently_used ((access c7wSt 1).2) = some 1 ∧
    (((access c7wSt 1).2).store.map Prod.fst).filter
        (fun a => decide ¬(a = 1)) =
      (c7wSt.store.map Prod.fst).filter (fun a => decide ¬(a = 1)) :=
  query_order_contract c7wSt 1 11 c7wFs (by decide) (by decide)

/-- Witness for C8: on a one-entry state whose backing file is absent, both
reclamation helpers answer `Ok(None)` without touching the mapping, and
popping the absent key 2 is a no-op returning no pair. -/
theorem absence_contract_witness :
    ((remove_lru_file c8wSt).2).store = c8wSt.store ∧
    ((remove_file c8wSt 1).2).store.Perm c8wSt.store ∧
    (remove_lru_file c8wSt).1 = .ok none ∧
    (remove_file c8wSt 1).1 = .ok none ∧
    pop c8wSt 2 = (none, c8wSt) :=
  ⟨(absence_contract c8wSt 1).1,
    (absence_contract c8wSt 1).2.1,
    (absence_contract c8wSt 1).2.2.1 11 (by decide) (by decide),
    (absence_contract c8wSt 1).2.2.2.1 11 (by decide) (by decide),
    (absence_contract c8wSt 2).2.2.2.2 (by decide)⟩

/-- Witness for C9: deleting via key 1 promotes it to MRU; deleting the LRU
file leaves the recency order unchanged. -/
theorem remove_file_promotes_lru_preserves_witness :
    ((remove_file c9wSt 1).2).store = c9wSt.store.eraseKey 1 ++ [(1, 11)] ∧
    ((remove_lru_file c9wSt).2).store = c9wSt.store :=
  remove_file_promotes_lru_preserves c9wSt 1 11 (by decide)

/-- Witness for C10: re-inserting the conflicting key 2 with overflow 8
promotes key 2 to MRU, the loop evicts the other entry (key 1) first, and
the evicted-key sequence [1] is an initial segment of [1, 2]. -/
theorem conflict_key_evicted_last_witness :
    ((c10wSt.store.map Prod.fst).Nodup ∧
      c10wSt.store.lookup 2 = some 12 ∧
      insert_new_file 4 c10wSt 2 13 8 =
        some (.ok [⟨1, 11, 5⟩], c10wSt2)) ∧
    (((conflict_phase c10wSt 2).2).store =
      c10wSt.store.eraseKey 2 ++ [(2, 12)] ∧
    ([(⟨1, 11, 5⟩ : FileInfo Nat)].map (fun r => r.key) =
      (((c10wSt.store.map Prod.fst).filter (fun a => decide ¬(a = 2))) ++
        [2]).take 1)) :=
  ⟨⟨by decide, by decide, by rfl⟩,
    conflict_key_evicted_last 4 c10wSt c10wSt2 2 12 13 8 [⟨1, 11, 5⟩]
      (by decide) (by decide) (by rfl)⟩

end LruAdaptor
